import Mathlib

/-!
# Offline-caching service worker (`service-worker.js`)

A shallow embedding of the event handlers of `service-worker.js` together with the
part of the browser platform they call (URL parsing, the Cache API, `fetch`,
notifications and window clients), followed by theorems about the handlers.

Handlers are functions on an explicit cache-storage state.  Every asynchronous
platform call is a `Promise`: a state transformer that settles (resolves or rejects)
and records the platform calls it made in a trace.  A promise chain is run to
settlement in one go, so a call whose promise the script drops (`cache.put` at line 54)
has taken effect in the final state.

The platform calls follow their specified behaviour as a function of their arguments
and of the cache storage: `caches.match` searches every bucket in creation order,
`cache.put` rejects what the Cache API does not store, `cache.addAll` is all-or-nothing.
The network is the one part of the environment that may fail.  Faults of the storage
backend itself, notification permissions and request headers (`Vary` matching) are
outside the model.  The `sync` handler (lines 104-116) is not modelled.
-/

namespace ServiceWorker

/-! ## Script constants (lines 2-9 of the script) -/

/-- The constant `CACHE_NAME`. -/
def CACHE_NAME : String := "24-hours-v2"

/-- The constant `urlsToCache`. -/
def urlsToCache : List String :=
  [ "./",
    "index.html",
    "manifest.json",
    "https://fonts.googleapis.com/css2?family=Orbitron:wght@400;700;900&family=Rubik:wght@300;400;500&display=swap",
    "https://upload.wikimedia.org/wikipedia/commons/e/ec/Timeless_PWA_Icon.svg" ]

/-- The string literal tested by `startsWith` in the fetch handler (line 44). -/
def FONT_PREFIX : String := "https://fonts.googleapis.com"

/-- The string literal used as the fallback badge in the push handler (line 75). -/
def DEFAULT_BADGE : String :=
  "https://upload.wikimedia.org/wikipedia/commons/e/ec/Timeless_PWA_Icon.svg"

/-- The string literal passed to `clients.openWindow` (line 98). -/
def DEFAULT_ROUTE : String := "/index.html"

/-! ## Platform: strings and URLs

Request URLs are serialised absolute http(s) URLs, the only kind a fetch event carries.
-/

/-- Platform `String.prototype.startsWith`. -/
def startsWith (s p : String) : Bool := p.data.isPrefixOf s.data

/-- Characters that end the authority or the path of a serialised URL. -/
def isPathEnd (c : Char) : Bool := c == '?' || c == '#'

/-- The part of a serialised URL after `scheme://`. -/
def afterScheme (href : List Char) : List Char :=
  (href.dropWhile (fun c => c != ':')).drop 3

/-- Platform `URL.host` of a serialised http(s) URL without credentials: the text
between `scheme://` and the first `/`, `?` or `#`. -/
def host (href : String) : String :=
  String.mk ((afterScheme href.data).takeWhile (fun c => !(c == '/' || isPathEnd c)))

/-- Platform `new URL(href).pathname` for a serialised http(s) URL: the text from the
first `/` after the authority up to the query or fragment; an empty path reads `/`. -/
def pathname (href : String) : String :=
  let fromPath := (afterScheme href.data).dropWhile (fun c => !(c == '/' || isPathEnd c))
  let p := fromPath.takeWhile (fun c => !isPathEnd c)
  if p.isEmpty then "/" else String.mk p

/-- The URL without its fragment: the part the Cache API compares. -/
def cacheKey (href : String) : String :=
  String.mk (href.data.takeWhile (fun c => c != '#'))

/-- The directory of a serialised URL: everything up to and including the last `/`
of its path (query and fragment removed first). -/
def dirOf (base : List Char) : List Char :=
  ((base.takeWhile (fun c => !isPathEnd c)).reverse.dropWhile (fun c => c != '/')).reverse

/-- Characters of a relative reference with a leading `./` removed. -/
def stripDotSlash : List Char → List Char
  | '.' :: '/' :: rest => rest
  | cs => cs

/-- Platform URL resolution `new URL(u, base)` for the two shapes of reference that
occur in `urlsToCache`: an absolute http(s) URL is kept, and a relative path (with an
optional leading `./`, no `..` segment) is appended to the directory of `base`. -/
def resolveUrl (base u : String) : String :=
  if startsWith u "https://" || startsWith u "http://" then u
  else String.mk (dirOf base.data ++ stripDotSlash u.data)

/-! ## Platform: requests, responses and cache storage -/

/-- A request: its serialised URL and its HTTP method. -/
structure Request where
  url : String
  method : String
  deriving DecidableEq, Repr

/-- A response: its status, whether it carries a `Vary: *` header, and its body. -/
structure Response where
  status : Nat
  varyStar : Bool
  body : String
  deriving DecidableEq, Repr

/-- A bucket: the stored request/response pairs, oldest first. -/
abbrev Cache := List (Request × Response)

/-- The origin's cache storage: the named buckets in creation order. -/
abbrev CacheStorage := List (String × Cache)

/-- Whether the request method is `GET`. -/
def Request.isGet (r : Request) : Bool := r.method == "GET"

/-- Platform `new Request(u)` as built from a URL string by `cache.addAll(urls)` and by
`cache.match(u)`: the URL resolved against the worker's location, method `GET`. -/
def mkRequest (location u : String) : Request :=
  { url := resolveUrl location u, method := "GET" }

/-- Platform "request matches cached item": equal URLs, fragments excluded. -/
def requestMatches (query cached : Request) : Bool :=
  cacheKey query.url == cacheKey cached.url

/-- Platform `cache.match(request)`: the first stored response whose request matches;
a request whose method is not `GET` matches nothing. -/
def cacheMatch (c : Cache) (req : Request) : Option Response :=
  if req.isGet then (c.find? (fun e => requestMatches req e.1)).map (fun e => e.2) else none

/-- Platform `caches.match(request)`: the buckets are searched in creation order and
the first match found in any of them is the result. -/
def storageMatch (s : CacheStorage) (req : Request) : Option Response :=
  s.findSome? (fun b => cacheMatch b.2 req)

/-- The bucket with the given name, if it exists. -/
def bucket (s : CacheStorage) (name : String) : Option Cache := s.lookup name

/-- The storage after `caches.open(name)`: the bucket is created, empty and last in
creation order, when it does not exist yet. -/
def openBucket (s : CacheStorage) (name : String) : CacheStorage :=
  if (bucket s name).isSome then s else s ++ [(name, [])]

/-- A bucket after storing a pair: stored pairs matching the request are replaced. -/
def putEntry (c : Cache) (req : Request) (resp : Response) : Cache :=
  c.filter (fun e => !requestMatches req e.1) ++ [(req, resp)]

/-- The storage after storing a pair in the bucket `name`. -/
def putInBucket (s : CacheStorage) (name : String) (req : Request) (resp : Response) :
    CacheStorage :=
  s.map (fun b => if b.1 == name then (b.1, putEntry b.2 req resp) else b)

/-- The storage after `caches.delete(name)`. -/
def deleteBucket (s : CacheStorage) (name : String) : CacheStorage :=
  s.filter (fun b => b.1 != name)

/-- Platform `response.ok`. -/
def Response.ok (r : Response) : Bool := 200 ≤ r.status && r.status ≤ 299

/-- Responses `cache.put` stores: it rejects status 206 and `Vary: *`. -/
def putAccepts (r : Response) : Bool := r.status != 206 && !r.varyStar

/-- Responses `cache.addAll` stores: additionally the status must be an ok status. -/
def addAllAccepts (r : Response) : Bool := r.ok && putAccepts r

/-! ## Platform: JSON values, notifications, window clients -/

/-- A JavaScript value as produced by `JSON.parse`, plus `undefined`. -/
inductive JSVal where
  | undefined
  | null
  | bool (b : Bool)
  | num (q : ℚ)
  | str (s : String)
  | arr (items : List JSVal)
  | obj (fields : List (String × JSVal))

/-- JavaScript truthiness: `undefined`, `null`, `false`, `0` and `""` are falsy. -/
def JSVal.truthy : JSVal → Bool
  | .undefined => false
  | .null => false
  | .bool b => b
  | .num q => q != 0
  | .str s => s != ""
  | .arr _ => true
  | .obj _ => true

/-- JavaScript `a || b`. -/
def JSVal.or (a b : JSVal) : JSVal := if a.truthy then a else b

/-- The value of `data.key` for a parsed object with the given fields. -/
def field (fields : List (String × JSVal)) (key : String) : JSVal :=
  (fields.lookup key).getD .undefined

/-- JavaScript property read `v.key` for the keys the push handler reads: an own
property of a parsed object, `undefined` when absent or when `v` is a primitive or an
array, and a thrown `TypeError` (here `none`) when `v` is `null` or `undefined`. -/
def JSVal.get (v : JSVal) (key : String) : Option JSVal :=
  match v with
  | .undefined => none
  | .null => none
  | .obj fields => some (field fields key)
  | _ => some .undefined

/-- The `options` object passed to `showNotification`. -/
structure NotificationOptions where
  body : JSVal
  icon : JSVal
  badge : JSVal

/-- A window client as returned by `clients.matchAll`. -/
structure Client where
  url : String
  focused : Bool
  deriving DecidableEq, Repr

/-! ## Effects and promises -/

/-- The platform calls a handler makes, as recorded in its trace. -/
inductive Effect where
  | consoleLog (msg : String)
  | consoleError (msg : String)
  | cachesOpen (name : String)
  | cachesKeys
  | cachesDelete (name : String)
  | cachesMatch (req : Request)
  | cacheAddAll (name : String) (urls : List String)
  | cachePut (name : String) (req : Request) (resp : Response)
  | fetch (req : Request)
  | clientsClaim
  | showNotification (title : JSVal) (options : NotificationOptions)
  | notificationClose
  | clientsMatchAll
  | clientFocus (index : Nat)
  | openWindow (url : String)

/-- How a promise settles. -/
inductive Settled (α : Type) where
  | resolved (value : α)
  | rejected (reason : String)
  deriving DecidableEq, Repr

/-- The result of running a promise to settlement: how it settled, the cache storage
it leaves, and the platform calls made on the way, in order. -/
structure Outcome (α : Type) where
  settled : Settled α
  caches : CacheStorage
  trace : List Effect

/-- A promise: run from a cache-storage state, it settles. -/
def Promise (α : Type) : Type := CacheStorage → Outcome α

/-- A promise resolved with `v`; also a synchronous `return v`. -/
def Promise.resolve {α : Type} (v : α) : Promise α := fun s => ⟨.resolved v, s, []⟩

/-- A promise rejected with `e`; also a synchronous `throw`. -/
def Promise.reject {α : Type} (e : String) : Promise α := fun s => ⟨.rejected e, s, []⟩

/-- JavaScript `p.then(f)`, and sequencing of statements: `f` runs when `p` resolves, a
rejection skips it. -/
def Promise.andThen {α β : Type} (p : Promise α) (f : α → Promise β) : Promise β := fun s =>
  let o := p s
  match o.settled with
  | .resolved v =>
    let o2 := f v o.caches
    ⟨o2.settled, o2.caches, o.trace ++ o2.trace⟩
  | .rejected e => ⟨.rejected e, o.caches, o.trace⟩

/-- JavaScript `p.catch(h)`: `h` runs when `p` rejects, a resolution skips it. -/
def Promise.catchWith {α : Type} (p : Promise α) (h : String → Promise α) : Promise α := fun s =>
  let o := p s
  match o.settled with
  | .resolved v => ⟨.resolved v, o.caches, o.trace⟩
  | .rejected e =>
    let o2 := h e o.caches
    ⟨o2.settled, o2.caches, o.trace ++ o2.trace⟩

/-- A call whose promise is dropped: its effects happen, its settlement is ignored. -/
def Promise.detached {α : Type} (p : Promise α) : Promise Unit := fun s =>
  let o := p s
  ⟨.resolved (), o.caches, o.trace⟩

/-- JavaScript `Promise.all(ps)`: every promise runs; the result rejects with the first
rejection, and otherwise resolves with all the values. -/
def Promise.all {α : Type} : List (Promise α) → Promise (List α)
  | [] => Promise.resolve []
  | p :: ps => fun s =>
    let o := p s
    let os := Promise.all ps o.caches
    ⟨match o.settled, os.settled with
      | .resolved v, .resolved vs => .resolved (v :: vs)
      | .rejected e, _ => .rejected e
      | .resolved _, .rejected e => .rejected e,
     os.caches, o.trace ++ os.trace⟩

instance : Monad Promise where
  pure := Promise.resolve
  bind := Promise.andThen

/-- A platform call that only leaves a mark in the trace. -/
def effect (e : Effect) : Promise Unit := fun s => ⟨.resolved (), s, [e]⟩

/-- Platform `console.log`. -/
def consoleLog (msg : String) : Promise Unit := effect (.consoleLog msg)

/-- Platform `console.error`. -/
def consoleError (msg : String) : Promise Unit := effect (.consoleError msg)

/-- What the handlers cannot control: the network (`none` is a failed fetch) and the
worker's own location. -/
structure Env where
  net : Request → Option Response
  location : String

/-- Platform `fetch(request)`. -/
def netFetch (env : Env) (req : Request) : Promise Response := fun s =>
  match env.net req with
  | some r => ⟨.resolved r, s, [.fetch req]⟩
  | none => ⟨.rejected "TypeError: Failed to fetch", s, [.fetch req]⟩

/-- Platform `caches.open(name)`; resolves with a handle on the bucket (its name). -/
def cachesOpen (name : String) : Promise String := fun s =>
  ⟨.resolved name, openBucket s name, [.cachesOpen name]⟩

/-- Platform `caches.keys()`. -/
def cachesKeys : Promise (List String) := fun s =>
  ⟨.resolved (s.map (fun b => b.1)), s, [.cachesKeys]⟩

/-- Platform `caches.delete(name)`; resolves with whether the bucket existed. -/
def cachesDelete (name : String) : Promise Bool := fun s =>
  ⟨.resolved (bucket s name).isSome, deleteBucket s name, [.cachesDelete name]⟩

/-- Platform `caches.match(request)`. -/
def cachesMatch (req : Request) : Promise (Option Response) := fun s =>
  ⟨.resolved (storageMatch s req), s, [.cachesMatch req]⟩

/-- Platform `cache.put(request, response)` on the bucket `name`: rejects with a
`TypeError` for a method other than `GET`, a status 206 or a `Vary: *` response. -/
def cachePut (name : String) (req : Request) (resp : Response) : Promise Unit := fun s =>
  if req.isGet && putAccepts resp then
    ⟨.resolved (), putInBucket s name req resp, [.cachePut name req resp]⟩
  else ⟨.rejected "TypeError", s, [.cachePut name req resp]⟩

/-- Whether `cache.addAll` gets a storable response for every URL. -/
def allFetched (env : Env) (urls : List String) : Bool :=
  (urls.map (mkRequest env.location)).all (fun q => match env.net q with
    | some r => addAllAccepts r
    | none => false)

/-- The pairs `cache.addAll` stores when every fetch succeeded. -/
def fetchedPairs (env : Env) (urls : List String) : List (Request × Response) :=
  (urls.map (mkRequest env.location)).filterMap (fun q => (env.net q).map (fun r => (q, r)))

/-- Platform `cache.addAll(urls)` on the bucket `name`: every URL is fetched once; unless
every fetch yields an ok response that may be stored and no two requests collide, the
promise rejects and the bucket is left as it was; otherwise all pairs are stored. -/
def cacheAddAll (env : Env) (name : String) (urls : List String) : Promise Unit := fun s =>
  let requests := urls.map (mkRequest env.location)
  let calls := Effect.cacheAddAll name urls :: requests.map Effect.fetch
  if allFetched env urls then
    if (requests.map (fun q => cacheKey q.url)).Nodup then
      ⟨.resolved (),
        (fetchedPairs env urls).foldl (fun st e => putInBucket st name e.1 e.2) s, calls⟩
    else ⟨.rejected "InvalidStateError", s, calls⟩
  else ⟨.rejected "TypeError", s, calls⟩

/-- The requests fetched from the network in a trace, in order. -/
def netCalls (t : List Effect) : List Request :=
  t.filterMap (fun e => match e with
    | .fetch r => some r
    | _ => none)

/-- The buckets written by `cache.put` or `cache.addAll` in a trace. -/
def cacheWrites (t : List Effect) : List String :=
  t.filterMap (fun e => match e with
    | .cachePut n _ _ => some n
    | .cacheAddAll n _ => some n
    | _ => none)

/-- The error messages logged in a trace. -/
def errorsLogged (t : List Effect) : List String :=
  t.filterMap (fun e => match e with
    | .consoleError m => some m
    | _ => none)

/-! ## The event handlers -/

/-- The frame of the `install` handler (lines 12-14 and 20-22) around the promise chain
it guards: the first log line, then the chain with the `.catch` that logs the failure.
The result is the promise handed to `event.waitUntil`. -/
def installWith (chain : Promise Unit) : Promise Unit := do
  consoleLog "Service Worker: Installing..."
  Promise.catchWith chain
    (fun _ => consoleError "Service Worker: Failed to cache on install")

/-- The guarded chain of the `install` handler (lines 15-19). -/
def installChain (env : Env) : Promise Unit :=
  Promise.andThen (cachesOpen CACHE_NAME) fun cache => do
    consoleLog "Service Worker: Caching app shell"
    cacheAddAll env cache urlsToCache

/-- The `install` handler (lines 12-22). -/
def install (env : Env) : Promise Unit := installWith (installChain env)

/-- The callback of the `map` at lines 31-34: log, then delete the bucket. -/
def deleteOld (cacheName : String) : Promise Bool := do
  consoleLog "Service Worker: Deleting old cache:"
  cachesDelete cacheName

/-- The `activate` handler (lines 25-38) for a given current bucket name: the promise
handed to `event.waitUntil`. -/
def activateHandler (current : String) : Promise Unit := do
  consoleLog "Service Worker: Activating..."
  Promise.andThen
    (Promise.andThen cachesKeys fun cacheNames =>
      Promise.all ((cacheNames.filter (fun cacheName => cacheName != current)).map deleteOld))
    (fun _ => effect .clientsClaim)

/-- The `activate` handler of the script: the current bucket name is `CACHE_NAME`. -/
def activate : Promise Unit := activateHandler CACHE_NAME

/-- The condition of the `if` at line 44. -/
def intercepts (request : Request) : Bool :=
  urlsToCache.contains (pathname request.url) || startsWith request.url FONT_PREFIX

/-- The promise handed to `event.respondWith` (lines 46-63); `none` stands for the
`undefined` a handler returns when it falls off its end. -/
def cacheFirst (env : Env) (request : Request) : Promise (Option Response) :=
  Promise.andThen (cachesMatch request) fun cachedResponse =>
    match cachedResponse with
    | some r => do
      consoleLog "Service Worker: Serving from cache:"
      return some r
    | none => do
      consoleLog "Service Worker: Fetching from network:"
      Promise.catchWith
        (Promise.andThen (netFetch env request) fun networkResponse =>
          Promise.andThen (cachesOpen CACHE_NAME) fun cache => do
            Promise.detached (cachePut cache request networkResponse)
            return some networkResponse)
        (fun _ => do
          consoleLog "Service Worker: Fetch failed, serving offline page if available."
          return none)

/-- What a fetch event leads to: whether `respondWith` was called and how its promise
settled, the cache storage afterwards, and the platform calls made. -/
structure FetchResult where
  respondWith : Option (Settled (Option Response))
  caches : CacheStorage
  trace : List Effect

/-- The `fetch` handler (lines 41-66). -/
def fetchHandler (env : Env) (request : Request) (s : CacheStorage) : FetchResult :=
  if intercepts request then
    let o := cacheFirst env request s
    ⟨some o.settled, o.caches, o.trace⟩
  else ⟨none, s, []⟩

/-- A property read that throws when the object is `null` or `undefined`. -/
def getProp (v : JSVal) (key : String) : Promise JSVal :=
  match v.get key with
  | some x => Promise.resolve x
  | none => Promise.reject "TypeError"

/-- The `push` handler (lines 69-80). The payload is the value `event.data.json()`
parses, or `none` when there is no payload or it is not JSON (the call throws). -/
def push (payload : Option JSVal) : Promise Unit :=
  match payload with
  | none => Promise.reject "SyntaxError"
  | some data => do
    consoleLog "Service Worker: Push received:"
    let body ← getProp data "body"
    let icon ← getProp data "icon"
    let badge ← getProp data "badge"
    let options : NotificationOptions :=
      { body := body, icon := icon, badge := badge.or (.str DEFAULT_BADGE) }
    let title ← getProp data "title"
    effect (.showNotification title options)

/-- The test `clientList[i].focused` of line 92. -/
def isFocused (clientList : List Client) (i : Nat) : Bool :=
  (clientList.get? i).any (fun c => c.focused)

/-- The loop of lines 90-95: the index of the client that ends up in `client`. -/
def chooseClient (clientList : List Client) : Nat :=
  (List.range clientList.length).foldl
    (fun client i => if isFocused clientList i then i else client) 0

/-- The `notificationclick` handler (lines 83-101), given the window clients that
`clients.matchAll` resolves with. -/
def notificationclick (clientList : List Client) : Promise Unit := do
  consoleLog "Service Worker: Notification clicked"
  effect .notificationClose
  effect .clientsMatchAll
  if clientList.length > 0 then
    effect (.clientFocus (chooseClient clientList))
  else
    effect (.openWindow DEFAULT_ROUTE)

/-! ## Auxiliary definitions used in the statements -/

/-- The platform calls made while deleting the given buckets. -/
def deleteTrace : List String → List Effect
  | [] => []
  | n :: names =>
    .consoleLog "Service Worker: Deleting old cache:" :: .cachesDelete n :: deleteTrace names

/-- The loop of lines 90-95 after its first `n` rounds. -/
def chooseUpTo (clientList : List Client) (n : Nat) : Nat :=
  (List.range n).foldl (fun client i => if isFocused clientList i then i else client) 0

/-! ## Sample inputs -/

/-- A worker location used in examples. -/
def exampleLocation : String := "https://example.com/service-worker.js"

/-- A `GET` request for a Google Fonts stylesheet. -/
def fontRequest : Request := ⟨"https://fonts.googleapis.com/css2?family=Rubik", "GET"⟩

/-- A `POST` request to the same URL. -/
def postRequest : Request := ⟨"https://fonts.googleapis.com/css2?family=Rubik", "POST"⟩

/-- A `GET` request to a host whose name merely begins like the font host. -/
def lookalikeRequest : Request := ⟨"https://fonts.googleapis.com.evil.example/css", "GET"⟩

/-- A `GET` request for the app's own `index.html`. -/
def indexRequest : Request := mkRequest exampleLocation "index.html"

/-- Two distinguishable responses. -/
def staleResponse : Response := ⟨200, false, "stale"⟩

/-- The response the sample network serves. -/
def freshResponse : Response := ⟨200, false, "fresh"⟩

/-- A partial-content response. -/
def partialResponse : Response := ⟨206, false, "part"⟩

/-- A network that serves `freshResponse` for everything. -/
def onlineEnv : Env := ⟨fun _ => some freshResponse, exampleLocation⟩

/-- A network that serves `partialResponse` for everything. -/
def partialEnv : Env := ⟨fun _ => some partialResponse, exampleLocation⟩

/-- An ok response carrying `Vary: *`. -/
def varyResponse : Response := ⟨200, true, "varied"⟩

/-- A not-found response. -/
def notFoundResponse : Response := ⟨404, false, "not found"⟩

/-- A network that serves `varyResponse` for everything. -/
def varyEnv : Env := ⟨fun _ => some varyResponse, exampleLocation⟩

/-- A network that serves `notFoundResponse` for everything. -/
def notFoundEnv : Env := ⟨fun _ => some notFoundResponse, exampleLocation⟩

/-- A network that is down. -/
def offlineEnv : Env := ⟨fun _ => none, exampleLocation⟩

/-- A storage where a bucket created before the current one holds another response
for the font request. -/
def twoBuckets : CacheStorage :=
  [("page-cache", [(fontRequest, staleResponse)]), (CACHE_NAME, [(fontRequest, freshResponse)])]

/-- A bucket holding the two assets of the spec's scenario. -/
def twoAssets : Cache :=
  [(mkRequest exampleLocation "./", freshResponse),
   (mkRequest exampleLocation "index.html", freshResponse)]

/-- The push payload `{title: "T", body: "B"}`. -/
def payloadTB : List (String × JSVal) := [("title", .str "T"), ("body", .str "B")]

/-- The push payload `{title: "T", body: "B", badge: ""}`. -/
def payloadEmptyBadge : List (String × JSVal) :=
  [("title", .str "T"), ("body", .str "B"), ("badge", .str "")]

/-! ## URL lemmas -/

theorem dropWhile_head_false {α : Type} (p : α → Bool) (l : List α) :
    l.dropWhile p = [] ∨ ∃ c t, l.dropWhile p = c :: t ∧ p c = false := by
  induction l with
  | nil => exact Or.inl rfl
  | cons a l ih =>
    by_cases h : p a = true
    · simpa [List.dropWhile, h] using ih
    · refine Or.inr ⟨a, l, ?_, by simpa using h⟩
      simp [List.dropWhile, h]

/-- A pathname always starts with a slash. -/
theorem pathname_starts_with_slash (href : String) :
    ∃ rest, (pathname href).data = '/' :: rest := by
  unfold pathname
  rcases dropWhile_head_false (fun c => !(c == '/' || isPathEnd c)) (afterScheme href.data)
    with h | ⟨c, t, h, hc⟩
  · simp only [h]
    exact ⟨[], rfl⟩
  · simp only [h]
    by_cases hs : c = '/'
    · subst hs
      exact ⟨t.takeWhile (fun c => !isPathEnd c), by simp [List.takeWhile, isPathEnd]⟩
    · have he : isPathEnd c = true := by simpa [hs] using hc
      exact ⟨[], by simp [List.takeWhile, he]⟩

/-- No entry of `urlsToCache` starts with a slash, so no pathname is an entry. -/
theorem pathname_not_in_urlsToCache (href : String) :
    urlsToCache.contains (pathname href) = false := by
  obtain ⟨rest, h⟩ := pathname_starts_with_slash href
  have hne : ∀ u ∈ urlsToCache, pathname href ≠ u := by
    intro u hu heq
    rw [heq] at h
    simp only [urlsToCache, List.mem_cons, List.mem_singleton, List.not_mem_nil, or_false] at hu
    rcases hu with rfl | rfl | rfl | rfl | rfl <;> simp at h
  cases hc : urlsToCache.contains (pathname href) with
  | false => rfl
  | true =>
    rw [List.contains_iff_exists_mem_beq] at hc
    obtain ⟨u, hu, hb⟩ := hc
    exact absurd (by simpa using hb) (hne u hu)

/-- The intercept condition comes down to its second disjunct. -/
theorem intercepts_eq_startsWith (request : Request) :
    intercepts request = startsWith request.url FONT_PREFIX := by
  unfold intercepts
  rw [pathname_not_in_urlsToCache, Bool.false_or]

/-! ## Running the fetch handler -/

/-- A cache hit: the stored response is returned and nothing else happens. -/
theorem cacheFirst_hit (env : Env) (req : Request) (s : CacheStorage) (r : Response)
    (h : storageMatch s req = some r) :
    cacheFirst env req s =
      ⟨.resolved (some r), s,
        [.cachesMatch req, .consoleLog "Service Worker: Serving from cache:"]⟩ := by
  simp [cacheFirst, Promise.andThen, cachesMatch, h, consoleLog, effect, bind, pure,
    Promise.resolve]

/-- A miss with the network up: the response is returned after `cache.put` was called
on the current bucket; the bucket takes the pair when `cache.put` accepts it. -/
theorem cacheFirst_miss_fetched (env : Env) (req : Request) (s : CacheStorage) (r : Response)
    (h : storageMatch s req = none) (hn : env.net req = some r) :
    cacheFirst env req s =
      ⟨.resolved (some r),
        if req.isGet && putAccepts r then putInBucket (openBucket s CACHE_NAME) CACHE_NAME req r
        else openBucket s CACHE_NAME,
        [.cachesMatch req, .consoleLog "Service Worker: Fetching from network:", .fetch req,
          .cachesOpen CACHE_NAME, .cachePut CACHE_NAME req r]⟩ := by
  by_cases hp : (req.isGet && putAccepts r) = true <;>
  simp [cacheFirst, Promise.andThen, Promise.catchWith, Promise.detached, cachesMatch, h, hn,
    consoleLog, effect, bind, pure, Promise.resolve, netFetch, cachesOpen, cachePut, hp]

/-- A miss with the network down: the promise resolves with `undefined`. -/
theorem cacheFirst_miss_failed (env : Env) (req : Request) (s : CacheStorage)
    (h : storageMatch s req = none) (hn : env.net req = none) :
    cacheFirst env req s =
      ⟨.resolved none, s,
        [.cachesMatch req, .consoleLog "Service Worker: Fetching from network:", .fetch req,
          .consoleLog "Service Worker: Fetch failed, serving offline page if available."]⟩ := by
  simp [cacheFirst, Promise.andThen, Promise.catchWith, cachesMatch, h, hn,
    consoleLog, effect, bind, pure, Promise.resolve, netFetch]

/-! ## Cache storage lemmas -/

theorem bucket_cons (b : String × Cache) (s : CacheStorage) (n : String) :
    bucket (b :: s) n = if n = b.1 then some b.2 else bucket s n := by
  obtain ⟨m, c⟩ := b
  by_cases h : n = m
  · subst h
    simp [bucket, List.lookup]
  · have hb : (n == m) = false := by simpa using h
    simp [bucket, List.lookup, hb, h]

theorem bucket_append_new (s : CacheStorage) (n : String) (h : bucket s n = none) :
    bucket (s ++ [(n, [])]) n = some [] := by
  induction s with
  | nil => simp [bucket_cons, bucket]
  | cons b s ih =>
    rw [bucket_cons] at h
    rw [List.cons_append, bucket_cons]
    by_cases hb : n = b.1
    · simp [hb] at h
    · simp only [hb, if_false] at h ⊢
      exact ih h

/-- After `caches.open(name)` the bucket exists, with the content it had, or empty. -/
theorem bucket_openBucket (s : CacheStorage) (n : String) :
    bucket (openBucket s n) n = some ((bucket s n).getD []) := by
  unfold openBucket
  cases h : bucket s n with
  | none => simpa using bucket_append_new s n h
  | some c => simp [h]

theorem bucket_putInBucket (s : CacheStorage) (n : String) (req : Request) (r : Response) :
    bucket (putInBucket s n req r) n = (bucket s n).map (fun c => putEntry c req r) := by
  induction s with
  | nil => simp [putInBucket, bucket]
  | cons b s ih =>
    have hs : putInBucket (b :: s) n req r =
        (if b.1 == n then (b.1, putEntry b.2 req r) else b) :: putInBucket s n req r := by
      simp [putInBucket]
    rw [hs, bucket_cons, bucket_cons]
    by_cases hb : n = b.1
    · subst hb
      simp
    · have hb2 : (b.1 == n) = false := by simpa using fun h => hb h.symm
      simp only [hb2, Bool.false_eq_true, if_false, hb]
      exact ih

theorem requestMatches_self (req : Request) : requestMatches req req = true := by
  simp [requestMatches]

theorem mem_putEntry (c : Cache) (req : Request) (r : Response) :
    (req, r) ∈ putEntry c req r := by
  simp [putEntry]

/-- Right after a pair is stored, a lookup of its `GET` request returns its response. -/
theorem cacheMatch_putEntry (c : Cache) (req : Request) (r : Response)
    (hg : req.isGet = true) : cacheMatch (putEntry c req r) req = some r := by
  have hnone : (c.filter (fun e => !requestMatches req e.1)).find?
      (fun e => requestMatches req e.1) = none := by
    rw [List.find?_eq_none]
    intro e he
    have := (List.mem_filter.mp he).2
    simpa using this
  simp [cacheMatch, hg, putEntry, List.find?_append, hnone, requestMatches_self]

theorem mem_of_bucket (s : CacheStorage) (n : String) (c : Cache) (h : bucket s n = some c) :
    (n, c) ∈ s := by
  induction s with
  | nil => simp [bucket] at h
  | cons b s ih =>
    rw [bucket_cons] at h
    by_cases hb : n = b.1
    · simp only [hb, if_true, Option.some.injEq] at h
      have : b = (n, c) := by rw [hb, ← h]
      simp [this]
    · simp only [hb, if_false] at h
      exact List.mem_cons_of_mem _ (ih h)

/-- A match in some bucket means `caches.match` finds something. -/
theorem storageMatch_isSome (s : CacheStorage) (n : String) (c : Cache) (req : Request)
    (r : Response) (hb : bucket s n = some c) (hm : cacheMatch c req = some r) :
    ∃ r2, storageMatch s req = some r2 := by
  have hmem := mem_of_bucket s n c hb
  cases h : storageMatch s req with
  | some r2 => exact ⟨r2, rfl⟩
  | none =>
    unfold storageMatch at h
    rw [List.findSome?_eq_none_iff] at h
    have := h (n, c) hmem
    simp [hm] at this

/-- When no bucket with another name matches, `caches.match` returns what the bucket
`n` holds. -/
theorem storageMatch_of_only (s : CacheStorage) (n : String) (c : Cache) (req : Request)
    (r : Response) (hb : bucket s n = some c) (hm : cacheMatch c req = some r)
    (hothers : ∀ b ∈ s, b.1 ≠ n → cacheMatch b.2 req = none) :
    storageMatch s req = some r := by
  induction s with
  | nil => simp [bucket] at hb
  | cons b s ih =>
    rw [bucket_cons] at hb
    by_cases hn : n = b.1
    · simp only [hn, if_true, Option.some.injEq] at hb
      simp [storageMatch, List.findSome?, hb, hm]
    · simp only [hn, if_false] at hb
      have h1 : cacheMatch b.2 req = none :=
        hothers b (List.mem_cons_self _ _) (fun h => hn h.symm)
      have h2 := ih hb (fun b2 hb2 => hothers b2 (List.mem_cons_of_mem _ hb2))
      simpa [storageMatch, List.findSome?, h1] using h2

/-! ## Running the activate handler -/

theorem deleteOld_run (n : String) (s : CacheStorage) :
    deleteOld n s = ⟨.resolved (bucket s n).isSome, deleteBucket s n,
      [.consoleLog "Service Worker: Deleting old cache:", .cachesDelete n]⟩ := rfl

theorem all_deleteOld_run (names : List String) (s : CacheStorage) :
    ∃ bs, Promise.all (names.map deleteOld) s =
      ⟨.resolved bs, names.foldl deleteBucket s, deleteTrace names⟩ := by
  induction names generalizing s with
  | nil => exact ⟨[], rfl⟩
  | cons n names ih =>
    obtain ⟨bs, h⟩ := ih (deleteBucket s n)
    refine ⟨(bucket s n).isSome :: bs, ?_⟩
    simp only [List.map_cons, Promise.all, deleteOld_run, h, List.foldl_cons, deleteTrace,
      List.cons_append, List.nil_append]

theorem netCalls_deleteTrace (names : List String) : netCalls (deleteTrace names) = [] := by
  induction names with
  | nil => rfl
  | cons n names ih => simpa [deleteTrace, netCalls] using ih

theorem cacheWrites_deleteTrace (names : List String) :
    cacheWrites (deleteTrace names) = [] := by
  induction names with
  | nil => rfl
  | cons n names ih => simpa [deleteTrace, cacheWrites] using ih

theorem foldl_deleteBucket (names : List String) (s : CacheStorage) :
    names.foldl deleteBucket s = s.filter (fun b => !names.contains b.1) := by
  induction names generalizing s with
  | nil => simp
  | cons n names ih =>
    rw [List.foldl_cons, ih, deleteBucket, List.filter_filter]
    apply List.filter_congr
    intro b _
    rw [List.contains_cons]
    by_cases h : b.1 = n
    · simp [h]
    · have hb : (b.1 == n) = false := by simpa using h
      simp [hb, h]

/-- Deleting every bucket name other than `current` leaves the buckets named `current`. -/
theorem foldl_deleteBucket_keys (current : String) (s : CacheStorage) :
    ((s.map (fun b => b.1)).filter (fun n => n != current)).foldl deleteBucket s =
      s.filter (fun b => b.1 == current) := by
  rw [foldl_deleteBucket]
  apply List.filter_congr
  intro b hb
  by_cases h : b.1 = current
  · simp [h]
  · have hm : b.1 ∈ s.map (fun b => b.1) := List.mem_map_of_mem _ hb
    have hc : ((s.map (fun b => b.1)).filter (fun n => n != current)).contains b.1 = true := by
      rw [List.contains_iff_exists_mem_beq]
      exact ⟨b.1, List.mem_filter.mpr ⟨hm, by simpa using h⟩, by simp⟩
    simp only [hc, Bool.not_true]
    exact (by simpa using h : (b.1 == current) = false).symm

theorem bucket_filter_current (current : String) (s : CacheStorage) :
    bucket (s.filter (fun b => b.1 == current)) current = bucket s current := by
  induction s with
  | nil => rfl
  | cons b s ih =>
    by_cases h : b.1 = current
    · have hb : (b.1 == current) = true := by simpa using h
      rw [List.filter_cons, if_pos hb, bucket_cons, bucket_cons, ih]
    · have hb : (b.1 == current) = false := by simpa using h
      have h2 : ¬ current = b.1 := fun h2 => h h2.symm
      simp only [List.filter_cons, hb, Bool.false_eq_true, if_false, bucket_cons, h2, ih]

/-- The activate handler resolves and leaves exactly the buckets named `current`; it
fetches nothing and writes to no bucket. -/
theorem activateHandler_run (current : String) (s : CacheStorage) :
    activateHandler current s =
      ⟨.resolved (), s.filter (fun b => b.1 == current),
        .consoleLog "Service Worker: Activating..." :: .cachesKeys ::
          (deleteTrace ((s.map (fun b => b.1)).filter (fun n => n != current)) ++
            [.clientsClaim])⟩ := by
  obtain ⟨bs, h⟩ := all_deleteOld_run ((s.map (fun b => b.1)).filter (fun n => n != current)) s
  rw [foldl_deleteBucket_keys] at h
  simp only [activateHandler, bind, Promise.andThen, consoleLog, effect, cachesKeys, h,
    List.cons_append, List.nil_append, List.singleton_append]

/-! ## Running the install handler -/

theorem bucket_foldl_put (ps : List (Request × Response)) (s : CacheStorage) (n : String) :
    bucket (ps.foldl (fun st e => putInBucket st n e.1 e.2) s) n =
      (bucket s n).map (fun c => ps.foldl (fun c e => putEntry c e.1 e.2) c) := by
  induction ps generalizing s with
  | nil => simp
  | cons p ps ih =>
    rw [List.foldl_cons, ih, bucket_putInBucket]
    cases bucket s n <;> rfl

theorem find_congr_on {α : Type} (l : List α) (p q : α → Bool) (h : ∀ x ∈ l, p x = q x) :
    l.find? p = l.find? q := by
  induction l with
  | nil => rfl
  | cons a l ih =>
    rw [List.find?_cons, List.find?_cons, h a (List.mem_cons_self _ _),
      ih (fun x hx => h x (List.mem_cons_of_mem _ hx))]

/-- Storing a pair whose request does not match `req` leaves the lookup of `req` as is. -/
theorem cacheMatch_putEntry_other (c : Cache) (q req : Request) (r : Response)
    (hne : cacheKey req.url ≠ cacheKey q.url) :
    cacheMatch (putEntry c q r) req = cacheMatch c req := by
  have hq : requestMatches req q = false := by simpa [requestMatches] using hne
  have hf : (c.filter (fun e => !requestMatches q e.1)).find? (fun e => requestMatches req e.1)
      = c.find? (fun e => requestMatches req e.1) := by
    rw [List.find?_filter]
    apply find_congr_on
    intro e _
    by_cases he : requestMatches req e.1 = true
    · have : requestMatches q e.1 = false := by
        simp only [requestMatches, beq_iff_eq, beq_eq_false_iff_ne] at he ⊢
        exact fun h => hne (he.trans h.symm)
      simp [he, this]
    · simp [he]
  unfold cacheMatch putEntry
  rw [List.find?_append, hf]
  cases c.find? (fun e => requestMatches req e.1) <;> simp [hq]

theorem cacheMatch_foldl_other (ps : List (Request × Response)) (c : Cache) (req : Request)
    (hne : ∀ e ∈ ps, cacheKey req.url ≠ cacheKey e.1.url) :
    cacheMatch (ps.foldl (fun c e => putEntry c e.1 e.2) c) req = cacheMatch c req := by
  induction ps generalizing c with
  | nil => rfl
  | cons p ps ih =>
    rw [List.foldl_cons, ih _ (fun e he => hne e (List.mem_cons_of_mem _ he)),
      cacheMatch_putEntry_other _ _ _ _ (hne p (List.mem_cons_self _ _))]

/-- After storing pairs with pairwise distinct keys, each `GET` request among them
looks up its own response. -/
theorem cacheMatch_foldl_mem (ps : List (Request × Response)) (c : Cache)
    (hnd : (ps.map (fun e => cacheKey e.1.url)).Nodup) (q : Request) (r : Response)
    (hmem : (q, r) ∈ ps) (hg : q.isGet = true) :
    cacheMatch (ps.foldl (fun c e => putEntry c e.1 e.2) c) q = some r := by
  induction ps generalizing c with
  | nil => simp at hmem
  | cons p ps ih =>
    rw [List.map_cons, List.nodup_cons] at hnd
    rw [List.foldl_cons]
    rcases List.mem_cons.mp hmem with h | h
    · subst h
      rw [cacheMatch_foldl_other, cacheMatch_putEntry _ _ _ hg]
      intro e he heq
      exact hnd.1 (heq ▸ List.mem_map_of_mem (fun e => cacheKey e.1.url) he)
    · exact ih _ hnd.2 h

/-! ## The asset requests never collide -/

theorem dirOf_no_pathEnd (base : List Char) : ∀ c ∈ dirOf base, isPathEnd c = false := by
  intro c hc
  unfold dirOf at hc
  have h1 := (List.dropWhile_sublist _).subset (List.mem_reverse.mp hc)
  have h2 := List.mem_takeWhile_imp (List.mem_reverse.mp h1)
  simpa using h2

theorem dirOf_getLast (base : List Char) :
    dirOf base = [] ∨ (dirOf base).getLast? = some '/' := by
  unfold dirOf
  rcases dropWhile_head_false (fun c => c != '/')
    (base.takeWhile (fun c => !isPathEnd c)).reverse with h | ⟨c, t, h, hc⟩
  · left
    rw [h]
    rfl
  · right
    have : c = '/' := by simpa using hc
    rw [List.getLast?_reverse, h, this]
    rfl

theorem append_ne_of_getLast (D x k : List Char) (c d : Char) (hx : x.getLast? = some c)
    (hk : k.getLast? = some d) (hcd : c ≠ d) : D ++ x ≠ k := by
  intro h
  have := congrArg List.getLast? h
  rw [List.getLast?_append, hx, hk] at this
  simp at this
  exact hcd this

theorem append_ne_of_query (D x k : List Char) (hD : ∀ c ∈ D, isPathEnd c = false)
    (hx : '?' ∉ x) (hk : '?' ∈ k) : D ++ x ≠ k := by
  intro h
  rw [← h] at hk
  rcases List.mem_append.mp hk with h1 | h1
  · have := hD _ h1
    simp [isPathEnd] at this
  · exact hx h1

theorem cacheKey_mk_append (D x : List Char) (hD : ∀ c ∈ D, isPathEnd c = false)
    (hx : '#' ∉ x) : cacheKey (String.mk (D ++ x)) = String.mk (D ++ x) := by
  unfold cacheKey
  congr 1
  rw [List.takeWhile_eq_self_iff]
  intro c hc
  rcases List.mem_append.mp hc with h1 | h1
  · have := hD _ h1
    have hne : c ≠ '#' := by
      intro h
      rw [h] at this
      simp [isPathEnd] at this
    simpa using hne
  · have hne : c ≠ '#' := fun h => hx (h ▸ h1)
    simpa using hne

/-- The cache keys of the five asset requests, for a worker at `location`. -/
theorem assetKeys_eq (location : String) :
    (urlsToCache.map (mkRequest location)).map (fun q => cacheKey q.url) =
      [ String.mk (dirOf location.data ++ []),
        String.mk (dirOf location.data ++ "index.html".data),
        String.mk (dirOf location.data ++ "manifest.json".data),
        "https://fonts.googleapis.com/css2?family=Orbitron:wght@400;700;900&family=Rubik:wght@300;400;500&display=swap",
        "https://upload.wikimedia.org/wikipedia/commons/e/ec/Timeless_PWA_Icon.svg" ] := by
  have hD := dirOf_no_pathEnd location.data
  have k1 := cacheKey_mk_append (dirOf location.data) [] hD (by decide)
  have k2 := cacheKey_mk_append (dirOf location.data) "index.html".data hD (by decide)
  have k3 := cacheKey_mk_append (dirOf location.data) "manifest.json".data hD (by decide)
  have r1 : resolveUrl location "./" = String.mk (dirOf location.data ++ []) := rfl
  have r2 : resolveUrl location "index.html" =
      String.mk (dirOf location.data ++ "index.html".data) := rfl
  have r3 : resolveUrl location "manifest.json" =
      String.mk (dirOf location.data ++ "manifest.json".data) := rfl
  have r4 : cacheKey (resolveUrl location
      "https://fonts.googleapis.com/css2?family=Orbitron:wght@400;700;900&family=Rubik:wght@300;400;500&display=swap") =
      "https://fonts.googleapis.com/css2?family=Orbitron:wght@400;700;900&family=Rubik:wght@300;400;500&display=swap" := by
    rw [show resolveUrl location
      "https://fonts.googleapis.com/css2?family=Orbitron:wght@400;700;900&family=Rubik:wght@300;400;500&display=swap" =
      "https://fonts.googleapis.com/css2?family=Orbitron:wght@400;700;900&family=Rubik:wght@300;400;500&display=swap"
      from rfl]
    decide
  have r5 : cacheKey (resolveUrl location
      "https://upload.wikimedia.org/wikipedia/commons/e/ec/Timeless_PWA_Icon.svg") =
      "https://upload.wikimedia.org/wikipedia/commons/e/ec/Timeless_PWA_Icon.svg" := by
    rw [show resolveUrl location
      "https://upload.wikimedia.org/wikipedia/commons/e/ec/Timeless_PWA_Icon.svg" =
      "https://upload.wikimedia.org/wikipedia/commons/e/ec/Timeless_PWA_Icon.svg" from rfl]
    decide
  simp only [urlsToCache, List.map_cons, List.map_nil, mkRequest, r1, r2, r3, r4, r5, k1, k2, k3]

theorem assetKeys_nodup (location : String) :
    ((urlsToCache.map (mkRequest location)).map (fun q => cacheKey q.url)).Nodup := by
  rw [assetKeys_eq]
  have hD := dirOf_no_pathEnd location.data
  have hW : ∀ x : List Char, (x = [] ∨ ∃ c, x.getLast? = some c ∧ c ≠ 'g') →
      dirOf location.data ++ x ≠
        "https://upload.wikimedia.org/wikipedia/commons/e/ec/Timeless_PWA_Icon.svg".data := by
    intro x hx
    rcases hx with rfl | ⟨c, hc, hne⟩
    · rw [List.append_nil]
      rcases dirOf_getLast location.data with h | h
      · rw [h]
        decide
      · intro heq
        rw [heq] at h
        revert h
        decide
    · exact append_ne_of_getLast _ _ _ c 'g' hc (by decide) hne
  have hF : ∀ x : List Char, '?' ∉ x →
      dirOf location.data ++ x ≠
        "https://fonts.googleapis.com/css2?family=Orbitron:wght@400;700;900&family=Rubik:wght@300;400;500&display=swap".data :=
    fun x hx => append_ne_of_query _ _ _ hD hx (by decide)
  have hC : ∀ x y : List Char, x ≠ y → dirOf location.data ++ x ≠ dirOf location.data ++ y :=
    fun x y hxy h => hxy (List.append_cancel_left h)
  simp only [List.nodup_cons, List.mem_cons, List.mem_singleton, List.not_mem_nil, or_false,
    not_or, List.nodup_nil, and_true]
  refine ⟨⟨?_, ?_, ?_, ?_⟩, ⟨?_, ?_, ?_⟩, ⟨?_, ?_⟩, ?_⟩
  · exact fun h => hC [] "index.html".data (by decide) (congrArg String.data h)
  · exact fun h => hC [] "manifest.json".data (by decide) (congrArg String.data h)
  · exact fun h => hF [] (by decide) (congrArg String.data h)
  · exact fun h => hW [] (Or.inl rfl) (congrArg String.data h)
  · exact fun h => hC "index.html".data "manifest.json".data (by decide)
      (congrArg String.data h)
  · exact fun h => hF _ (by decide) (congrArg String.data h)
  · exact fun h => hW _ (Or.inr ⟨'l', by decide, by decide⟩) (congrArg String.data h)
  · exact fun h => hF _ (by decide) (congrArg String.data h)
  · exact fun h => hW _ (Or.inr ⟨'n', by decide, by decide⟩) (congrArg String.data h)
  · decide

/-! ## Running `cache.addAll` and the install handler -/

theorem installChain_run_ok (env : Env) (s : CacheStorage)
    (h : allFetched env urlsToCache = true) :
    installChain env s =
      ⟨.resolved (),
        (fetchedPairs env urlsToCache).foldl (fun st e => putInBucket st CACHE_NAME e.1 e.2)
          (openBucket s CACHE_NAME),
        .cachesOpen CACHE_NAME :: .consoleLog "Service Worker: Caching app shell" ::
          .cacheAddAll CACHE_NAME urlsToCache ::
          (urlsToCache.map (mkRequest env.location)).map Effect.fetch⟩ := by
  simp only [installChain, Promise.andThen, cachesOpen, bind, consoleLog, effect, cacheAddAll,
    h, if_true, assetKeys_nodup env.location, List.cons_append, List.nil_append]

theorem installChain_run_failed (env : Env) (s : CacheStorage)
    (h : allFetched env urlsToCache = false) :
    installChain env s =
      ⟨.rejected "TypeError", openBucket s CACHE_NAME,
        .cachesOpen CACHE_NAME :: .consoleLog "Service Worker: Caching app shell" ::
          .cacheAddAll CACHE_NAME urlsToCache ::
          (urlsToCache.map (mkRequest env.location)).map Effect.fetch⟩ := by
  simp only [installChain, Promise.andThen, cachesOpen, bind, consoleLog, effect, cacheAddAll,
    h, Bool.false_eq_true, if_false, List.cons_append, List.nil_append]

theorem installWith_resolved (chain : Promise Unit) (s : CacheStorage) (o : Outcome Unit)
    (h : chain s = o) (v : Unit) (hv : o.settled = .resolved v) :
    installWith chain s =
      ⟨.resolved (), o.caches, .consoleLog "Service Worker: Installing..." :: o.trace⟩ := by
  simp only [installWith, bind, Promise.andThen, consoleLog, effect, Promise.catchWith, h, hv,
    List.cons_append, List.nil_append]

theorem installWith_rejected (chain : Promise Unit) (s : CacheStorage) (o : Outcome Unit)
    (h : chain s = o) (e : String) (he : o.settled = .rejected e) :
    installWith chain s =
      ⟨.resolved (), o.caches, .consoleLog "Service Worker: Installing..." ::
        (o.trace ++ [.consoleError "Service Worker: Failed to cache on install"])⟩ := by
  simp only [installWith, bind, Promise.andThen, consoleLog, effect, Promise.catchWith, h, he,
    consoleError, List.cons_append, List.nil_append]

theorem netCalls_map_fetch (rs : List Request) : netCalls (rs.map Effect.fetch) = rs := by
  induction rs with
  | nil => rfl
  | cons r rs ih => simpa [netCalls] using ih

theorem errorsLogged_map_fetch (rs : List Request) : errorsLogged (rs.map Effect.fetch) = [] := by
  induction rs with
  | nil => rfl
  | cons r rs ih => simp [errorsLogged]

theorem netCalls_append (a b : List Effect) : netCalls (a ++ b) = netCalls a ++ netCalls b := by
  simp [netCalls, List.filterMap_append]

theorem errorsLogged_append (a b : List Effect) :
    errorsLogged (a ++ b) = errorsLogged a ++ errorsLogged b := by
  simp [errorsLogged, List.filterMap_append]

/-! ## The loop of the notificationclick handler -/

theorem chooseUpTo_succ (cl : List Client) (n : Nat) :
    chooseUpTo cl (n + 1) = if isFocused cl n then n else chooseUpTo cl n := by
  simp [chooseUpTo, List.range_succ, List.foldl_append]

theorem chooseUpTo_none (cl : List Client) (n : Nat)
    (h : ∀ j, j < n → isFocused cl j = false) : chooseUpTo cl n = 0 := by
  induction n with
  | zero => rfl
  | succ n ih =>
    rw [chooseUpTo_succ, h n (Nat.lt_succ_self n)]
    simpa using ih (fun j hj => h j (Nat.lt_succ_of_lt hj))

theorem chooseUpTo_last (cl : List Client) (n j : Nat) (hj : j < n)
    (hf : isFocused cl j = true) :
    isFocused cl (chooseUpTo cl n) = true ∧ j ≤ chooseUpTo cl n ∧ chooseUpTo cl n < n := by
  induction n with
  | zero => exact absurd hj (Nat.not_lt_zero j)
  | succ n ih =>
    rw [chooseUpTo_succ]
    by_cases hn : isFocused cl n = true
    · rw [if_pos hn]
      exact ⟨hn, Nat.le_of_lt_succ hj, Nat.lt_succ_self n⟩
    · rw [if_neg hn]
      have hjn : j < n := by
        rcases Nat.lt_succ_iff_lt_or_eq.mp hj with h | h
        · exact h
        · exact absurd (h ▸ hf) hn
      obtain ⟨h1, h2, h3⟩ := ih hjn
      exact ⟨h1, h2, Nat.lt_succ_of_lt h3⟩

theorem notificationclick_run (cl : List Client) (s : CacheStorage) :
    notificationclick cl s =
      ⟨.resolved (), s,
        [.consoleLog "Service Worker: Notification clicked", .notificationClose,
          .clientsMatchAll,
          if cl.length > 0 then .clientFocus (chooseClient cl) else .openWindow DEFAULT_ROUTE]⟩ := by
  by_cases h : cl.length > 0 <;>
  simp [notificationclick, bind, Promise.andThen, consoleLog, effect, h]

/-! ## Running the push handler -/

theorem push_run (fields : List (String × JSVal)) (s : CacheStorage) :
    push (some (.obj fields)) s =
      ⟨.resolved (), s,
        [.consoleLog "Service Worker: Push received:",
          .showNotification (field fields "title")
            { body := field fields "body", icon := field fields "icon",
              badge := (field fields "badge").or (.str DEFAULT_BADGE) }]⟩ := by
  simp [push, bind, Promise.andThen, consoleLog, effect, getProp, JSVal.get, Promise.resolve]

/-! ## The fetch handler: which requests are intercepted -/

/-- C1 (the code departs from the claim): the pathname test of line 44 never fires,
because a pathname starts with `/` and no entry of `urlsToCache` does. For a worker at
`https://example.com/service-worker.js` only the stylesheet on the font host, of the
five assets, meets the intercept condition; the request for `index.html` is passed
through without `respondWith`, and so is the icon asset for a worker at any location. -/
theorem asset_requests_not_intercepted :
    (∀ href : String, urlsToCache.contains (pathname href) = false) ∧
    urlsToCache.map (fun u => intercepts (mkRequest exampleLocation u)) =
      [false, false, false, true, false] ∧
    (∀ (env : Env) (s : CacheStorage),
      (fetchHandler env indexRequest s).respondWith = none ∧
      (fetchHandler env indexRequest s).trace = []) ∧
    (∀ (location : String) (env : Env) (s : CacheStorage),
      (fetchHandler env (mkRequest location
        "https://upload.wikimedia.org/wikipedia/commons/e/ec/Timeless_PWA_Icon.svg")
        s).respondWith = none) := by
  refine ⟨pathname_not_in_urlsToCache, by decide, ?_, ?_⟩
  · intro env s
    have h : intercepts indexRequest = false := by decide
    simp [fetchHandler, h]
  · intro location env s
    have h : intercepts (mkRequest location
        "https://upload.wikimedia.org/wikipedia/commons/e/ec/Timeless_PWA_Icon.svg") = false := by
      rw [intercepts_eq_startsWith]
      rfl
    simp [fetchHandler, h]

/-- C4 (the code departs from the claim): a request to the host
`fonts.googleapis.com.evil.example` has a path outside the asset list and a host other
than `fonts.googleapis.com`, yet its URL starts with the literal of line 44, so the
handler calls `respondWith`, reads the cache storage, fetches from the network and
writes the response into the current bucket. -/
theorem lookalike_host_intercepted :
    urlsToCache.contains (pathname lookalikeRequest.url) = false ∧
    host lookalikeRequest.url = "fonts.googleapis.com.evil.example" ∧
    host lookalikeRequest.url ≠ "fonts.googleapis.com" ∧
    (fetchHandler onlineEnv lookalikeRequest []).respondWith =
      some (.resolved (some freshResponse)) ∧
    netCalls (fetchHandler onlineEnv lookalikeRequest []).trace = [lookalikeRequest] ∧
    (fetchHandler onlineEnv lookalikeRequest []).caches =
      [(CACHE_NAME, [(lookalikeRequest, freshResponse)])] := by
  decide

/-- Requests that fail both tests of line 44 are left alone: no `respondWith`, no
platform call, storage untouched. -/
theorem fetch_passes_through (env : Env) (request : Request) (s : CacheStorage)
    (hp : urlsToCache.contains (pathname request.url) = false)
    (hf : startsWith request.url FONT_PREFIX = false) :
    fetchHandler env request s = ⟨none, s, []⟩ := by
  have h : intercepts request = false := by
    unfold intercepts
    rw [hp, hf]
    rfl
  simp [fetchHandler, h]

/-! ## The fetch handler: cache hit -/

/-- C2 (refuted as stated): with a bucket created before the current one holding
another response for the same request, the handler answers with that older bucket's
response, not with the one stored in the current bucket. -/
theorem older_bucket_shadows_current :
    intercepts fontRequest = true ∧
    bucket twoBuckets CACHE_NAME = some [(fontRequest, freshResponse)] ∧
    cacheMatch [(fontRequest, freshResponse)] fontRequest = some freshResponse ∧
    (fetchHandler onlineEnv fontRequest twoBuckets).respondWith =
      some (.resolved (some staleResponse)) ∧
    staleResponse ≠ freshResponse := by
  decide

/-- C2 (amended): for an intercepted request for which the current bucket holds a
response, the handler responds with the first match `caches.match` finds over all
buckets in creation order, makes no network call and leaves the storage as it is; that
match is the current bucket's response when no bucket with another name holds a match
for the request. -/
theorem fetch_hit_first_match (env : Env) (request : Request) (s : CacheStorage) (c : Cache)
    (r : Response) (hi : intercepts request = true) (hb : bucket s CACHE_NAME = some c)
    (hm : cacheMatch c request = some r) :
    ∃ found, storageMatch s request = some found ∧
      (fetchHandler env request s).respondWith = some (.resolved (some found)) ∧
      netCalls (fetchHandler env request s).trace = [] ∧
      cacheWrites (fetchHandler env request s).trace = [] ∧
      (fetchHandler env request s).caches = s ∧
      ((∀ b ∈ s, b.1 ≠ CACHE_NAME → cacheMatch b.2 request = none) → found = r) := by
  obtain ⟨found, hfound⟩ := storageMatch_isSome s CACHE_NAME c request r hb hm
  refine ⟨found, hfound, ?_, ?_, ?_, ?_, ?_⟩
  · simp [fetchHandler, hi, cacheFirst_hit env request s found hfound]
  · simp [fetchHandler, hi, cacheFirst_hit env request s found hfound, netCalls]
  · simp [fetchHandler, hi, cacheFirst_hit env request s found hfound, cacheWrites]
  · simp [fetchHandler, hi, cacheFirst_hit env request s found hfound]
  · intro hothers
    have := storageMatch_of_only s CACHE_NAME c request r hb hm hothers
    rw [hfound] at this
    exact Option.some.inj this

/-- Witness for `fetch_hit_first_match`: the font request, stored only in the current
bucket, is answered from it. -/
theorem fetch_hit_first_match_witness :
    ∃ found, storageMatch [(CACHE_NAME, [(fontRequest, freshResponse)])] fontRequest = some found ∧
      (fetchHandler offlineEnv fontRequest
        [(CACHE_NAME, [(fontRequest, freshResponse)])]).respondWith =
          some (.resolved (some found)) ∧
      netCalls (fetchHandler offlineEnv fontRequest
        [(CACHE_NAME, [(fontRequest, freshResponse)])]).trace = [] ∧
      cacheWrites (fetchHandler offlineEnv fontRequest
        [(CACHE_NAME, [(fontRequest, freshResponse)])]).trace = [] ∧
      (fetchHandler offlineEnv fontRequest
        [(CACHE_NAME, [(fontRequest, freshResponse)])]).caches =
          [(CACHE_NAME, [(fontRequest, freshResponse)])] ∧
      ((∀ b ∈ [(CACHE_NAME, [(fontRequest, freshResponse)])],
        b.1 ≠ CACHE_NAME → cacheMatch b.2 fontRequest = none) → found = freshResponse) :=
  fetch_hit_first_match offlineEnv fontRequest [(CACHE_NAME, [(fontRequest, freshResponse)])]
    [(fontRequest, freshResponse)] freshResponse (by decide) (by decide) (by decide)

/-! ## The fetch handler: cache miss -/

/-- C3 (refuted as stated): an intercepted `POST` request with no match is fetched
once and its response returned, but `cache.put` rejects the request, so the current
bucket stays empty; likewise a `GET` request answered with status 206 is returned but
not stored. -/
theorem unstorable_response_not_cached :
    (intercepts postRequest = true ∧ storageMatch [] postRequest = none ∧
      onlineEnv.net postRequest = some freshResponse ∧
      (fetchHandler onlineEnv postRequest []).respondWith =
        some (.resolved (some freshResponse)) ∧
      netCalls (fetchHandler onlineEnv postRequest []).trace = [postRequest] ∧
      (fetchHandler onlineEnv postRequest []).caches = [(CACHE_NAME, [])]) ∧
    (intercepts fontRequest = true ∧ storageMatch [] fontRequest = none ∧
      partialEnv.net fontRequest = some partialResponse ∧
      (fetchHandler partialEnv fontRequest []).respondWith =
        some (.resolved (some partialResponse)) ∧
      (fetchHandler partialEnv fontRequest []).caches = [(CACHE_NAME, [])]) := by
  decide

/-- C3 (amended): for an intercepted `GET` request with no match in cache storage,
when the network fetch succeeds with a response `cache.put` accepts (status other than
206, no `Vary: *`), the network is called exactly once, the handler returns the network
response, and afterwards the current bucket holds a copy of it keyed by the request. -/
theorem fetch_miss_populates (env : Env) (request : Request) (s : CacheStorage) (r : Response)
    (hi : intercepts request = true) (hmiss : storageMatch s request = none)
    (hnet : env.net request = some r) (hg : request.isGet = true)
    (hp : putAccepts r = true) :
    (fetchHandler env request s).respondWith = some (.resolved (some r)) ∧
    netCalls (fetchHandler env request s).trace = [request] ∧
    cacheWrites (fetchHandler env request s).trace = [CACHE_NAME] ∧
    ∃ c, bucket (fetchHandler env request s).caches CACHE_NAME = some c ∧
      (request, r) ∈ c ∧ cacheMatch c request = some r := by
  have hrun := cacheFirst_miss_fetched env request s r hmiss hnet
  simp only [hg, hp, Bool.and_self, if_true] at hrun
  refine ⟨?_, ?_, ?_, ?_⟩
  · simp [fetchHandler, hi, hrun]
  · simp [fetchHandler, hi, hrun, netCalls]
  · simp [fetchHandler, hi, hrun, cacheWrites]
  · refine ⟨putEntry ((bucket s CACHE_NAME).getD []) request r, ?_, mem_putEntry _ _ _,
      cacheMatch_putEntry _ _ _ hg⟩
    simp [fetchHandler, hi, hrun, bucket_putInBucket, bucket_openBucket]

/-- Witness for `fetch_miss_populates`: the font request on an empty storage. -/
theorem fetch_miss_populates_witness :
    (fetchHandler onlineEnv fontRequest []).respondWith =
      some (.resolved (some freshResponse)) ∧
    netCalls (fetchHandler onlineEnv fontRequest []).trace = [fontRequest] ∧
    cacheWrites (fetchHandler onlineEnv fontRequest []).trace = [CACHE_NAME] ∧
    ∃ c, bucket (fetchHandler onlineEnv fontRequest []).caches CACHE_NAME = some c ∧
      (fontRequest, freshResponse) ∈ c ∧ cacheMatch c fontRequest = some freshResponse :=
  fetch_miss_populates onlineEnv fontRequest [] freshResponse (by decide) (by decide) rfl
    (by decide) (by decide)

/-- C10: for an intercepted request with no match in cache storage, when the network
request fails the promise handed to `respondWith` resolves with `undefined` rather than
rejecting; the handler performs one storage lookup and one fetch, serves no fallback
(no further lookup), and the cache storage is left exactly as it was. -/
theorem fetch_miss_offline (env : Env) (request : Request) (s : CacheStorage)
    (hi : intercepts request = true) (hmiss : storageMatch s request = none)
    (hnet : env.net request = none) :
    fetchHandler env request s =
      ⟨some (.resolved none), s,
        [.cachesMatch request, .consoleLog "Service Worker: Fetching from network:",
          .fetch request,
          .consoleLog "Service Worker: Fetch failed, serving offline page if available."]⟩ := by
  simp [fetchHandler, hi, cacheFirst_miss_failed env request s hmiss hnet]

/-- Witness for `fetch_miss_offline`: the font request, offline, on an empty storage. -/
theorem fetch_miss_offline_witness :
    fetchHandler offlineEnv fontRequest [] =
      ⟨some (.resolved none), [],
        [.cachesMatch fontRequest, .consoleLog "Service Worker: Fetching from network:",
          .fetch fontRequest,
          .consoleLog "Service Worker: Fetch failed, serving offline page if available."]⟩ :=
  fetch_miss_offline offlineEnv fontRequest [] (by decide) (by decide) rfl

/-! ## The activate handler -/

/-- C5: from any cache storage that contains the current bucket, the activate handler
resolves, every bucket left has the name `CACHE_NAME` (so a lookup of any other name
finds nothing), and the bucket `CACHE_NAME` holds exactly the entries it held before.
In the scenario with buckets `v1` and `v2` both holding the two assets and current
version `v2`, activation leaves `v2` alone, with both entries. -/
theorem activate_keeps_only_current (s : CacheStorage) (c : Cache)
    (h : bucket s CACHE_NAME = some c) :
    (activate s).settled = .resolved () ∧
    (∀ b ∈ (activate s).caches, b.1 = CACHE_NAME) ∧
    (∀ n, n ≠ CACHE_NAME → bucket (activate s).caches n = none) ∧
    bucket (activate s).caches CACHE_NAME = some c ∧
    (activateHandler "v2" [("v1", twoAssets), ("v2", twoAssets)]).caches =
      [("v2", twoAssets)] := by
  have hrun := activateHandler_run CACHE_NAME s
  have hall : ∀ b ∈ (activate s).caches, b.1 = CACHE_NAME := by
    intro b hb
    simp only [activate, hrun] at hb
    simpa using (List.mem_filter.mp hb).2
  refine ⟨by simp [activate, hrun], hall, ?_, ?_, by decide⟩
  · intro n hn
    cases hb : bucket (activate s).caches n with
    | none => rfl
    | some c2 => exact absurd (hall _ (mem_of_bucket _ _ _ hb)) hn
  · simp only [activate, hrun, bucket_filter_current, h]

/-- Witness for `activate_keeps_only_current`: a storage with a stale bucket before
the current one. -/
theorem activate_keeps_only_current_witness :
    (activate twoBuckets).settled = .resolved () ∧
    (∀ b ∈ (activate twoBuckets).caches, b.1 = CACHE_NAME) ∧
    (∀ n, n ≠ CACHE_NAME → bucket (activate twoBuckets).caches n = none) ∧
    bucket (activate twoBuckets).caches CACHE_NAME = some [(fontRequest, freshResponse)] ∧
    (activateHandler "v2" [("v1", twoAssets), ("v2", twoAssets)]).caches =
      [("v2", twoAssets)] :=
  activate_keeps_only_current twoBuckets [(fontRequest, freshResponse)] (by decide)

/-! ## The install handler -/

theorem allFetched_of_forall (env : Env)
    (hnet : ∀ u ∈ urlsToCache, ∃ r, env.net (mkRequest env.location u) = some r ∧
      addAllAccepts r = true) : allFetched env urlsToCache = true := by
  unfold allFetched
  rw [List.all_eq_true]
  intro q hq
  obtain ⟨u, hu, rfl⟩ := List.mem_map.mp hq
  obtain ⟨r, hr, ha⟩ := hnet u hu
  simp [hr, ha]

theorem allFetched_false_of_failed (env : Env) (u : String) (hu : u ∈ urlsToCache)
    (hfail : env.net (mkRequest env.location u) = none) : allFetched env urlsToCache = false := by
  cases h : allFetched env urlsToCache with
  | false => rfl
  | true =>
    unfold allFetched at h
    rw [List.all_eq_true] at h
    have := h _ (List.mem_map_of_mem _ hu)
    simp [hfail] at this

theorem fetchedPairs_keys_sublist (env : Env) (urls : List String) :
    ((fetchedPairs env urls).map (fun e => cacheKey e.1.url)).Sublist
      ((urls.map (mkRequest env.location)).map (fun q => cacheKey q.url)) := by
  unfold fetchedPairs
  induction urls with
  | nil => simp
  | cons u urls ih =>
    simp only [List.map_cons, List.filterMap_cons]
    cases hnet : env.net (mkRequest env.location u) with
    | none => exact List.Sublist.cons _ ih
    | some r => exact List.Sublist.cons₂ _ ih

theorem mem_fetchedPairs (env : Env) (urls : List String) (u : String) (r : Response)
    (hu : u ∈ urls) (hr : env.net (mkRequest env.location u) = some r) :
    (mkRequest env.location u, r) ∈ fetchedPairs env urls := by
  unfold fetchedPairs
  rw [List.mem_filterMap]
  exact ⟨mkRequest env.location u, List.mem_map_of_mem _ hu, by simp [hr]⟩

/-- C6 (refuted as stated): when every asset fetch succeeds with status 200 but the
responses carry `Vary: *`, `cache.addAll` rejects them; the install handler logs the
failure and resolves, and the bucket `CACHE_NAME` exists but holds nothing, so no asset
can be looked up in it. The same happens when every fetch is answered with status 404. -/
theorem install_unstorable_not_cached :
    ((∀ q : Request, varyEnv.net q = some varyResponse) ∧ varyResponse.ok = true ∧
      (install varyEnv []).settled = .resolved () ∧
      (install varyEnv []).caches = [(CACHE_NAME, [])] ∧
      cacheMatch [] (mkRequest varyEnv.location "index.html") = none) ∧
    ((∀ q : Request, notFoundEnv.net q = some notFoundResponse) ∧
      (install notFoundEnv []).settled = .resolved () ∧
      (install notFoundEnv []).caches = [(CACHE_NAME, [])]) :=
  ⟨⟨fun _ => rfl, by decide, by decide, by decide, by decide⟩,
    ⟨fun _ => rfl, by decide, by decide⟩⟩

/-- C6 (amended): from any cache storage, when every asset fetch succeeds with a
response `cache.addAll` stores (an ok status other than 206, no `Vary: *`), the install
handler resolves having fetched each asset once, the bucket `CACHE_NAME` exists
afterwards, and a lookup of each URL of `urlsToCache` in that bucket returns the
response that was fetched for it. The lookup is a function of the bucket alone: it
involves no network call. -/
theorem install_caches_assets (env : Env) (s : CacheStorage)
    (hnet : ∀ u ∈ urlsToCache, ∃ r, env.net (mkRequest env.location u) = some r ∧
      addAllAccepts r = true) :
    (install env s).settled = .resolved () ∧
    netCalls (install env s).trace = urlsToCache.map (mkRequest env.location) ∧
    ∃ c, bucket (install env s).caches CACHE_NAME = some c ∧
      ∀ u ∈ urlsToCache, ∃ r, env.net (mkRequest env.location u) = some r ∧
        cacheMatch c (mkRequest env.location u) = some r := by
  have hrun := installWith_resolved (installChain env) s _
    (installChain_run_ok env s (allFetched_of_forall env hnet)) () rfl
  refine ⟨by simp [install, hrun], ?_, ?_⟩
  · simp only [install, hrun]
    exact (netCalls_map_fetch _)
  · refine ⟨(fetchedPairs env urlsToCache).foldl (fun c e => putEntry c e.1 e.2)
      ((bucket s CACHE_NAME).getD []), ?_, ?_⟩
    · simp only [install, hrun, bucket_foldl_put, bucket_openBucket, Option.map_some']
    · intro u hu
      obtain ⟨r, hr, _⟩ := hnet u hu
      refine ⟨r, hr, ?_⟩
      exact cacheMatch_foldl_mem _ _
        ((assetKeys_nodup env.location).sublist (fetchedPairs_keys_sublist env urlsToCache))
        _ _ (mem_fetchedPairs env urlsToCache u r hu hr) rfl

/-- Witness for `install_caches_assets`: a network that serves every asset. -/
theorem install_caches_assets_witness :
    (install onlineEnv []).settled = .resolved () ∧
    netCalls (install onlineEnv []).trace = urlsToCache.map (mkRequest onlineEnv.location) ∧
    ∃ c, bucket (install onlineEnv []).caches CACHE_NAME = some c ∧
      ∀ u ∈ urlsToCache, ∃ r, onlineEnv.net (mkRequest onlineEnv.location u) = some r ∧
        cacheMatch c (mkRequest onlineEnv.location u) = some r :=
  install_caches_assets onlineEnv [] (fun _ _ => ⟨freshResponse, rfl, by decide⟩)

/-- C9: whatever the starting cache storage and the outcome of the asset fetches, the
promise the install handler hands to `event.waitUntil` resolves. Each asset is fetched
exactly once, whether or not a fetch fails (nothing is retried). When `cache.addAll`
does not get a storable response for every asset, as when some asset fetch fails, the
failure is logged once with `console.error` and the bucket `CACHE_NAME` is left with
the content it had. The `.catch` guards the whole chain: whatever promise stands in
its place (for instance one where opening the bucket rejects), the promise handed to
`waitUntil` resolves, and a rejection of the chain is logged. -/
theorem install_never_rejects (env : Env) (s : CacheStorage) (chain : Promise Unit) :
    (install env s).settled = .resolved () ∧
    netCalls (install env s).trace = urlsToCache.map (mkRequest env.location) ∧
    ((∃ u ∈ urlsToCache, env.net (mkRequest env.location u) = none) →
      allFetched env urlsToCache = false) ∧
    (allFetched env urlsToCache = false →
      errorsLogged (install env s).trace = ["Service Worker: Failed to cache on install"] ∧
      bucket (install env s).caches CACHE_NAME = some ((bucket s CACHE_NAME).getD [])) ∧
    (installWith chain s).settled = .resolved () ∧
    (∀ e, (chain s).settled = .rejected e →
      errorsLogged (installWith chain s).trace =
        errorsLogged (chain s).trace ++ ["Service Worker: Failed to cache on install"]) := by
  have hchain : (installWith chain s).settled = .resolved () := by
    cases hc : (chain s).settled with
    | resolved v => rw [installWith_resolved chain s _ rfl v hc]
    | rejected e => rw [installWith_rejected chain s _ rfl e hc]
  have hlog : ∀ e, (chain s).settled = .rejected e →
      errorsLogged (installWith chain s).trace =
        errorsLogged (chain s).trace ++ ["Service Worker: Failed to cache on install"] := by
    intro e he
    rw [installWith_rejected chain s _ rfl e he]
    simp [errorsLogged, List.filterMap_append]
  have hfail : (∃ u ∈ urlsToCache, env.net (mkRequest env.location u) = none) →
      allFetched env urlsToCache = false := by
    rintro ⟨u, hu, hnone⟩
    exact allFetched_false_of_failed env u hu hnone
  cases hall : allFetched env urlsToCache with
  | true =>
    have hrun := installWith_resolved (installChain env) s _
      (installChain_run_ok env s hall) () rfl
    refine ⟨by simp [install, hrun], ?_, hall ▸ hfail, ?_, hchain, hlog⟩
    · simp only [install, hrun]
      exact (netCalls_map_fetch _)
    · intro h
      exact absurd h (by decide)
  | false =>
    have hrun := installWith_rejected (installChain env) s _
      (installChain_run_failed env s hall) "TypeError" rfl
    refine ⟨by simp [install, hrun], ?_, hall ▸ hfail, ?_, hchain, hlog⟩
    · simp only [install, hrun]
      rw [← List.cons_append, netCalls_append]
      exact (congrArg (fun l => l ++ []) (netCalls_map_fetch _)).trans (List.append_nil _)
    · intro _
      constructor
      · simp only [install, hrun]
        rw [← List.cons_append, errorsLogged_append]
        exact congrArg (fun l => l ++ ["Service Worker: Failed to cache on install"])
          (errorsLogged_map_fetch _)
      · simp only [install, hrun, bucket_openBucket]

/-- Witness for `install_never_rejects`: the network is down, and in place of the
chain stands a promise that rejects at once. -/
theorem install_never_rejects_witness :
    (install offlineEnv []).settled = .resolved () ∧
    errorsLogged (install offlineEnv []).trace =
      ["Service Worker: Failed to cache on install"] ∧
    bucket (install offlineEnv []).caches CACHE_NAME = some [] ∧
    (installWith (Promise.reject "storage unavailable") []).settled = .resolved () ∧
    errorsLogged (installWith (Promise.reject "storage unavailable") []).trace =
      ["Service Worker: Failed to cache on install"] :=
  have h := install_never_rejects offlineEnv [] (Promise.reject "storage unavailable")
  have hfail := h.2.2.1 ⟨"./", by decide, rfl⟩
  ⟨h.1, (h.2.2.2.1 hfail).1, (h.2.2.2.1 hfail).2, h.2.2.2.2.1,
    h.2.2.2.2.2 "storage unavailable" rfl⟩

/-! ## The push handler -/

/-- C7 (refuted as stated): for the payload `{title: "T", body: "B", badge: ""}` a badge
is supplied, the empty string, but the notification is requested with the fixed icon URL
as its badge, because `||` treats the empty string as falsy. -/
theorem empty_badge_replaced :
    field payloadEmptyBadge "badge" = .str "" ∧
    (push (some (.obj payloadEmptyBadge)) []).trace =
      [.consoleLog "Service Worker: Push received:",
        .showNotification (.str "T")
          { body := .str "B", icon := .undefined, badge := .str DEFAULT_BADGE }] ∧
    JSVal.str DEFAULT_BADGE ≠ JSVal.str "" := by
  refine ⟨rfl, rfl, ?_⟩
  intro h
  injection h with h
  revert h
  decide

/-- C7 (amended): for every push payload that parses to an object `data`, the push
handler requests exactly one notification, with title `data.title`, body `data.body`,
icon `data.icon`, and with badge `data.badge` when that value is truthy and otherwise
(badge missing, `null`, `false`, `0` or the empty string) the fixed icon URL; it
resolves and leaves the cache storage alone. The payload `{title: "T", body: "B"}`
yields title `"T"`, body `"B"` and the fixed icon URL as badge. -/
theorem push_shows_notification (fields : List (String × JSVal)) (s : CacheStorage) :
    push (some (.obj fields)) s =
      ⟨.resolved (), s,
        [.consoleLog "Service Worker: Push received:",
          .showNotification (field fields "title")
            { body := field fields "body", icon := field fields "icon",
              badge := if (field fields "badge").truthy then field fields "badge"
                else .str DEFAULT_BADGE }]⟩ ∧
    (push (some (.obj payloadTB)) s).trace =
      [.consoleLog "Service Worker: Push received:",
        .showNotification (.str "T")
          { body := .str "B", icon := .undefined, badge := .str DEFAULT_BADGE }] :=
  ⟨push_run fields s, rfl⟩

/-! ## The notificationclick handler -/

/-- C8 (refuted as stated): with two focused clients the handler focuses the second
one (index 1), not the first; and with one open client that is not focused it focuses
that client instead of opening a window. -/
theorem click_focus_not_first :
    (notificationclick [⟨"/a", true⟩, ⟨"/b", true⟩] []).trace =
      [.consoleLog "Service Worker: Notification clicked", .notificationClose,
        .clientsMatchAll, .clientFocus 1] ∧
    (notificationclick [⟨"/a", false⟩] []).trace =
      [.consoleLog "Service Worker: Notification clicked", .notificationClose,
        .clientsMatchAll, .clientFocus 0] :=
  ⟨rfl, rfl⟩

/-- C8 (amended): the handler closes the notification, lists the window clients, and
then: with no window client at all it opens a window at `/index.html`; otherwise it
focuses one client of the list, namely the last one (highest index) whose focused flag
is set, or the first client of the list when no flag is set. -/
theorem click_focuses_last_focused (clientList : List Client) (s : CacheStorage) :
    (clientList = [] →
      notificationclick clientList s =
        ⟨.resolved (), s,
          [.consoleLog "Service Worker: Notification clicked", .notificationClose,
            .clientsMatchAll, .openWindow "/index.html"]⟩) ∧
    (clientList ≠ [] →
      notificationclick clientList s =
        ⟨.resolved (), s,
          [.consoleLog "Service Worker: Notification clicked", .notificationClose,
            .clientsMatchAll, .clientFocus (chooseClient clientList)]⟩ ∧
      chooseClient clientList < clientList.length ∧
      ((∀ j, j < clientList.length → isFocused clientList j = false) →
        chooseClient clientList = 0) ∧
      (∀ j, j < clientList.length → isFocused clientList j = true →
        isFocused clientList (chooseClient clientList) = true ∧
        j ≤ chooseClient clientList)) := by
  constructor
  · intro h
    subst h
    rfl
  · intro h
    have hlen : clientList.length > 0 := List.length_pos.mpr h
    refine ⟨?_, ?_, ?_, ?_⟩
    · rw [notificationclick_run]
      simp [hlen]
    · by_cases hex : ∃ j, j < clientList.length ∧ isFocused clientList j = true
      · obtain ⟨j, hj, hf⟩ := hex
        exact (chooseUpTo_last clientList clientList.length j hj hf).2.2
      · have : chooseClient clientList = 0 :=
          chooseUpTo_none clientList clientList.length (fun j hj => by
            cases hf : isFocused clientList j with
            | false => rfl
            | true => exact absurd ⟨j, hj, hf⟩ hex)
        rw [this]
        exact hlen
    · exact chooseUpTo_none clientList clientList.length
    · intro j hj hf
      have := chooseUpTo_last clientList clientList.length j hj hf
      exact ⟨this.1, this.2.1⟩

/-- Witness for `click_focuses_last_focused`: three clients, the first two focused. -/
theorem click_focuses_last_focused_witness :
    notificationclick [⟨"/a", true⟩, ⟨"/b", true⟩, ⟨"/c", false⟩] [] =
      ⟨.resolved (), [],
        [.consoleLog "Service Worker: Notification clicked", .notificationClose,
          .clientsMatchAll, .clientFocus 1]⟩ ∧
    notificationclick [] [] =
      ⟨.resolved (), [],
        [.consoleLog "Service Worker: Notification clicked", .notificationClose,
          .clientsMatchAll, .openWindow "/index.html"]⟩ :=
  ⟨((click_focuses_last_focused [⟨"/a", true⟩, ⟨"/b", true⟩, ⟨"/c", false⟩] []).2
      (by decide)).1,
    (click_focuses_last_focused [] []).1 rfl⟩

end ServiceWorker
